import Mathlib

/-!
Verification of the restql-ts core: the query IR, the validator/sanitizer
(`validateAndSanitizeQuery` in src/validation.ts), the request parser
(`parseRequest`), and the per-dialect SQL compiler (`SQLBuilder` in
src/builder.ts).  Every definition below is a shallow embedding of the
corresponding TypeScript function, translated clause by clause from the
source.  JavaScript regular expressions are modelled by explicit scanners
over the character list; JavaScript truthiness on optional strings/numbers
is modelled where the source relies on it.
-/

namespace RestQL

/-- The character 0x27 (single quote), kept out of string literals. -/
def singleQuote : Char := Char.ofNat 39

/-- `SQLDialect` from types.ts. -/
inductive SQLDialect where
  | mysql
  | postgres
  | sqlite
deriving DecidableEq

/-- Scalar/JSON values as they occur in conditions and rows (`value: any` in
types.ts).  `date` carries the JavaScript string rendering of the Date.
`arr` and `obj` stand for arrays and plain objects (both have
`typeof === "object"` and are not `Date` instances). -/
inductive Value where
  | null
  | bool (b : Bool)
  | int (n : Int)
  | str (s : String)
  | date (rep : String)
  | arr (elems : List Value)
  | obj

/-- `String(value)` as used by `validateValue` in validation.ts.  Arrays and
plain objects are rejected by the preceding `typeof` check before the source
ever stringifies them, so their rendering here is never consulted. -/
def Value.toJSString : Value → String
  | .null => "null"
  | .bool true => "true"
  | .bool false => "false"
  | .int n => toString n
  | .str s => s
  | .date rep => rep
  | .arr _ => ""
  | .obj => ""

/-- `WhereCondition` from types.ts; `operator` is one of the `Operator`
strings and is emitted into SQL verbatim. -/
structure WhereCondition where
  field : String
  operator : String
  value : Value

/-- `WhereClause = WhereCondition | WhereGroup` from types.ts.  The source
distinguishes the two shapes by probing for a `conditions` key
(`isWhereGroup` / `isWhereCondition`); here the union is a tagged sum.
`negated` models the optional `not` field of a group. -/
inductive WhereClause where
  | cond (c : WhereCondition)
  | group (operator : String) (conditions : List WhereClause) (negated : Option Bool)

/-- `OrderByClause` from types.ts; `direction` is the string ASC or DESC. -/
structure OrderByClause where
  field : String
  direction : String

/-- `JoinCondition` from types.ts.  `type` is the join-kind string
(INNER/LEFT/RIGHT/FULL); `aliasName` models the optional `alias` property
and `onConds` the `on` array (both renamed because `alias` and `on` are
reserved in Lean). -/
structure JoinCondition where
  type : String
  table : String
  aliasName : Option String
  onConds : List WhereClause

/-- The `where` property of `QueryOptions` is typed `WhereClause[]` but
`validateAndSanitizeQuery` also accepts a single clause
(`Array.isArray(query.where)` branch), so the input shape is this sum. -/
inductive WhereInput where
  | one (c : WhereClause)
  | many (cs : List WhereClause)

/-- `QueryOptions` from types.ts (`whereCs` models `where`, a Lean keyword). -/
structure QueryOptions where
  select : Option (List String) := none
  joins : Option (List JoinCondition) := none
  whereCs : Option WhereInput := none
  groupBy : Option (List String) := none
  having : Option (List WhereClause) := none
  orderBy : Option (List OrderByClause) := none
  limit : Option Int := none
  offset : Option Int := none

/-- A row object (`Record<string, any>`): ordered key/value pairs, the order
being JavaScript property order (used by `Object.keys`/`Object.entries`). -/
abbrev Row : Type := List (String × Value)

/-- `ParsedRequest` from types.ts (`whereCs`/`values` model
`where`/`values`). -/
structure ParsedRequest where
  operation : String
  table : String
  fields : Option (List String) := none
  whereCs : Option (List WhereClause) := none
  joins : Option (List JoinCondition) := none
  orderBy : Option (List OrderByClause) := none
  groupBy : Option (List String) := none
  having : Option (List WhereClause) := none
  limit : Option Int := none
  offset : Option Int := none
  values : Option (List Row) := none

/-- `RestQLConfig` from types.ts. -/
structure RestQLConfig where
  dialect : SQLDialect
  schema : Option String := none

/-- `RestQLResponse` from types.ts: the compiled SQL text plus the ordered
parameter list (`params: any[]`; a whole array can be a single parameter,
as in the postgres bulk-delete path). -/
structure RestQLResponse where
  sql : String
  params : List Value

/-- JavaScript truthiness of an optional string (`undefined` and the empty
string are falsy). -/
def isTruthyStr (o : Option String) : Bool := o.getD "" != ""

/-- `s.includes(c)` for a single character. -/
def strContains (s : String) (c : Char) : Bool := s.data.contains c

/-- `s.startsWith(pre)`. -/
def strStartsWith (s pre : String) : Bool := pre.data.isPrefixOf s.data

/-- `s.endsWith(suf)`. -/
def strEndsWith (s suf : String) : Bool := suf.data.isSuffixOf s.data

/-- `s.toLowerCase()`. -/
def strToLower (s : String) : String := String.mk (s.data.map Char.toLower)

/-- The splitter loop behind `splitOnChar`, accumulating the current
segment in reverse. -/
def splitCharAux (sep : Char) : List Char → List Char → List String
  | [], acc => [String.mk acc.reverse]
  | c :: rest, acc =>
      if c == sep then String.mk acc.reverse :: splitCharAux sep rest []
      else splitCharAux sep rest (c :: acc)

/-- `s.split(sep)` for a one-character separator (the only form the source
uses: `split(".")` and `split("/")`). -/
def splitOnChar (sep : Char) (s : String) : List String := splitCharAux sep s.data []

/-- `String.prototype.includes(sub)` / the `in` substring test. -/
def containsSubstr (s sub : String) : Bool := go s.data
where
  go : List Char → Bool
  | [] => sub.data.isPrefixOf []
  | cs@(_ :: rest) => sub.data.isPrefixOf cs || go rest

/-! ### The regular expressions of validation.ts

Each JavaScript regex used by the validator is modelled by an explicit
scanner.  The `DANGEROUS_PATTERNS` are sequences of case-insensitive
literals, whitespace classes (`\s*`, `\s+`), a digit run (`\d+`) and the
end-of-input anchor; greedy matching is exact for these patterns because
every class is followed by a literal starting outside the class. -/

/-- One atom of a modelled regular expression. -/
inductive Pat where
  | lit (s : String)
  | ws0
  | ws1
  | digits1
  | eos

/-- Case-insensitive literal match at the head of the input, returning the
rest on success. -/
def matchCI : List Char → List Char → Option (List Char)
  | [], cs => some cs
  | _ :: _, [] => none
  | p :: ps, c :: cs => if p.toLower == c.toLower then matchCI ps cs else none

/-- Match a pattern sequence at the head of the input. -/
def matchPats : List Pat → List Char → Bool
  | [], _ => true
  | .lit s :: ps, cs =>
      match matchCI s.data cs with
      | some rest => matchPats ps rest
      | none => false
  | .ws0 :: ps, cs => matchPats ps (cs.dropWhile Char.isWhitespace)
  | .ws1 :: ps, cs =>
      match cs with
      | [] => false
      | c :: rest => c.isWhitespace && matchPats ps (rest.dropWhile Char.isWhitespace)
  | .digits1 :: ps, cs =>
      match cs with
      | [] => false
      | c :: rest => c.isDigit && matchPats ps (rest.dropWhile Char.isDigit)
  | .eos :: ps, cs => cs.isEmpty && matchPats ps cs

/-- Unanchored search (`RegExp.prototype.test`): try every suffix. -/
def searchChars (ps : List Pat) : List Char → Bool
  | [] => matchPats ps []
  | cs@(_ :: rest) => matchPats ps cs || searchChars ps rest

/-- `pattern.test(s)` for a modelled pattern. -/
def searchPats (ps : List Pat) (s : String) : Bool := searchChars ps s.data

/-- `DANGEROUS_PATTERNS` from validation.ts, in source order: trailing
semicolon, `--` comment, block-comment delimiters, the quoted OR-tautology,
UNION SELECT, SELECT FROM, DROP TABLE, DELETE FROM, chained DROP, chained
DELETE. -/
def DANGEROUS_PATTERNS : List (List Pat) :=
  [ [.lit ";", .ws0, .eos],
    [.lit "--"],
    [.lit "/*"],
    [.lit "*/"],
    [.lit singleQuote.toString, .ws0, .lit "OR", .ws0, .lit singleQuote.toString,
      .digits1, .lit singleQuote.toString],
    [.lit "UNION", .ws1, .lit "SELECT"],
    [.lit "SELECT", .ws1, .lit "FROM"],
    [.lit "DROP", .ws1, .lit "TABLE"],
    [.lit "DELETE", .ws1, .lit "FROM"],
    [.lit ";", .ws0, .lit "DROP"],
    [.lit ";", .ws0, .lit "DELETE"] ]

/-- `DANGEROUS_PATTERNS.some((pattern) => pattern.test(s))`. -/
def matchesDangerous (s : String) : Bool := DANGEROUS_PATTERNS.any (fun ps => searchPats ps s)

/-- `SAFE_VALUE_PATTERN = /^[^;'"\\\/\-\-]*$/`: no semicolon, quote, double
quote, backslash, slash or dash anywhere. -/
def safeValueTest (s : String) : Bool :=
  s.data.all fun c =>
    !(c == ';' || c == singleQuote || c == '"' || c == '\\' || c == '/' || c == '-')

/-- `SAFE_TABLE_PATTERN = /^[a-zA-Z][a-zA-Z0-9_]{0,63}$/`. -/
def safeTableTest (s : String) : Bool :=
  match s.data with
  | [] => false
  | c :: rest => c.isAlpha && decide (rest.length ≤ 63)
      && rest.all (fun c => c.isAlphanum || c == '_')

/-- One dot-free identifier component of `SAFE_FIELD_PATTERN`:
`[a-zA-Z][a-zA-Z0-9_]*`. -/
def safeFieldPart (part : String) : Bool :=
  match part.data with
  | [] => false
  | c :: rest => c.isAlpha && rest.all (fun c => c.isAlphanum || c == '_')

/-- `SAFE_FIELD_PATTERN = /^(\*|[a-zA-Z][a-zA-Z0-9_]*(?:\.[a-zA-Z][a-zA-Z0-9_]*)*)$/`. -/
def safeFieldTest (s : String) : Bool :=
  s == "*" || (splitOnChar '.' s).all safeFieldPart

/-- `ALLOWED_FIELD_PATTERN = /^[a-zA-Z0-9_.]+|\*$/` under
`RegExp.prototype.test`: the alternation anchors only its first branch at
the start and its second at the end, so the test succeeds iff the first
character is a word character or dot, or the last character is `*`. -/
def allowedFieldTest (s : String) : Bool :=
  (match s.data with
   | [] => false
   | c :: _ => c.isAlphanum || c == '_' || c == '.')
  || strEndsWith s "*"

/-- `SQL_KEYWORDS` from validation.ts, lowercased, duplicates kept. -/
def SQL_KEYWORDS : List String :=
  ["select", "insert", "update", "delete", "drop", "truncate", "alter",
   "create", "database", "table", "union", "join", "exec", "execute",
   "declare", "cast", "convert", "into", "values", "where", "from", "group",
   "order", "having", "limit", "offset", "set", "exec", "execute", "sp_", "xp_"]

/-- A word character for the `\b` boundary (`[a-zA-Z0-9_]`). -/
def isWordChar (c : Char) : Bool := c.isAlphanum || c == '_'

/-- `new RegExp("\\b" ++ word ++ "\\b").test(s)`, specialised to the SQL
keywords, all of which consist solely of word characters: an occurrence of
`word` counts iff the character before it (if any) and the character after
it (if any) are non-word characters. -/
def containsWholeWord (word s : String) : Bool := go none s.data
where
  go : Option Char → List Char → Bool
  | prev, cs =>
      (decide (∀ c, prev = some c → isWordChar c = false)
        && word.data.isPrefixOf cs
        && (match cs.drop word.length with
            | [] => true
            | c :: _ => !isWordChar c))
      || match cs with
         | [] => false
         | c :: rest => go (some c) rest

/-! ### Validator/Sanitizer (validation.ts) -/

/-- `ValidationOptions` from validation.ts; every field optional.  The
`allowedFieldPattern` regex is modelled as a string predicate. -/
structure ValidationOptions where
  maxQueryDepth : Option Nat := none
  maxConditionsPerGroup : Option Nat := none
  maxSelectFields : Option Nat := none
  maxGroupByFields : Option Nat := none
  allowedOperators : Option (List String) := none
  allowedLogicalOperators : Option (List String) := none
  allowedFieldPattern : Option (String → Bool) := none
  maxValueLength : Option Nat := none
  preventSqlKeywords : Option Bool := none

/-- The context record threaded through `validateAndSanitizeWhereClause`. -/
structure WhereContext where
  depth : Nat
  maxDepth : Nat
  maxConditions : Nat
  allowedOperators : Option (List String)
  allowedLogicalOperators : Option (List String)
  allowedFieldPattern : String → Bool
  maxValueLength : Option Nat
  preventSqlKeywords : Option Bool

/-- `validateValue` from validation.ts.  `null`/`undefined` pass; objects
that are not `Date`s are rejected; then the stringified value is checked
against `maxValueLength` (skipped when the option is absent or 0, both
falsy), `DANGEROUS_PATTERNS`, `SAFE_VALUE_PATTERN`, and — when
`preventSqlKeywords` is truthy — a substring scan over `SQL_KEYWORDS`. -/
def validateValue (value : Value) (maxValueLength : Option Nat)
    (preventSqlKeywords : Option Bool) : Except String Unit :=
  match value with
  | .null => .ok ()
  | .arr _ => .error "Complex objects are not allowed as values"
  | .obj => .error "Complex objects are not allowed as values"
  | v =>
      let strValue := v.toJSString
      if maxValueLength.getD 0 != 0 && strValue.data.length > maxValueLength.getD 0 then
        .error "Value exceeds maximum length"
      else if matchesDangerous strValue then
        .error "Value contains dangerous patterns"
      else if !safeValueTest strValue then
        .error "Value contains forbidden characters"
      else if preventSqlKeywords.getD false then
        let lowerValue := strToLower strValue
        if SQL_KEYWORDS.any (fun keyword => containsSubstr lowerValue keyword)
            || containsSubstr lowerValue "select"
            || containsSubstr lowerValue "delete"
            || containsSubstr lowerValue "drop" then
          .error "Value contains SQL keywords"
        else .ok ()
      else .ok ()

/-- `validateAndSanitizeWhereCondition` from validation.ts: the field is
checked against `allowedFieldPattern` only, the operator against
`allowedOperators` when that option is present, and the value via
`validateValue`; the condition itself is returned unchanged. -/
def validateAndSanitizeWhereCondition (allowedFieldPattern : String → Bool)
    (condition : WhereCondition) (allowedOperators : Option (List String))
    (maxValueLength : Option Nat) (preventSqlKeywords : Option Bool) :
    Except String WhereCondition :=
  if !allowedFieldPattern condition.field then
    .error "Invalid field name"
  else if (match allowedOperators with
           | some ops => !ops.contains condition.operator
           | none => false) then
    .error "Operator is not allowed"
  else do
    let _ ← validateValue condition.value maxValueLength preventSqlKeywords
    .ok condition

mutual

/-- `validateAndSanitizeWhereClause` from validation.ts, with the body of
`validateAndSanitizeWhereGroup` inlined into the group branch: reject when
the depth bound is exceeded, dispatch on the clause shape, and for a group
check the logical operator and child count before recursing with depth+1. -/
def validateAndSanitizeWhereClause (clause : WhereClause) (context : WhereContext) :
    Except String WhereClause :=
  if context.depth > context.maxDepth then
    .error "Query too complex"
  else
    match clause with
    | .cond c => do
        let c2 ← validateAndSanitizeWhereCondition context.allowedFieldPattern c
          context.allowedOperators context.maxValueLength context.preventSqlKeywords
        .ok (.cond c2)
    | .group operator conditions negated =>
        if (match context.allowedLogicalOperators with
            | some los => !los.contains operator
            | none => false) then
          .error "Logical operator is not allowed"
        else if conditions.length > context.maxConditions then
          .error "Too many conditions in group"
        else do
          let cs2 ← validateWhereList conditions { context with depth := context.depth + 1 }
          .ok (.group operator cs2 negated)

/-- `group.conditions.map(validateAndSanitizeWhereClause)` with a shared
context. -/
def validateWhereList (cs : List WhereClause) (context : WhereContext) :
    Except String (List WhereClause) :=
  match cs with
  | [] => .ok []
  | c :: rest => do
      let c2 ← validateAndSanitizeWhereClause c context
      let rest2 ← validateWhereList rest context
      .ok (c2 :: rest2)

end

/-- The fresh context `validateJoinCondition` builds for a join's `on`
clauses: depth/count bounds are the module constants `MAX_QUERY_DEPTH = 5`
and `MAX_CONDITIONS_PER_GROUP = 10` (not the configured options). -/
def joinWhereContext (allowedFieldPattern : String → Bool)
    (allowedOperators allowedLogicalOperators : Option (List String))
    (maxValueLength : Option Nat) (preventSqlKeywords : Option Bool) : WhereContext :=
  { depth := 0, maxDepth := 5, maxConditions := 10,
    allowedOperators := allowedOperators,
    allowedLogicalOperators := allowedLogicalOperators,
    allowedFieldPattern := allowedFieldPattern,
    maxValueLength := maxValueLength,
    preventSqlKeywords := preventSqlKeywords }

/-- `validateJoinCondition` from validation.ts: table and (truthy) alias
must match `SAFE_TABLE_PATTERN`; the `on` clauses are validated with the
fresh `joinWhereContext`. -/
def validateJoinCondition (allowedFieldPattern : String → Bool) (join : JoinCondition)
    (allowedOperators : Option (List String))
    (allowedLogicalOperators : Option (List String))
    (maxValueLength : Option Nat) (preventSqlKeywords : Option Bool) :
    Except String JoinCondition :=
  if !safeTableTest join.table then
    .error "Invalid table name"
  else if isTruthyStr join.aliasName && !safeTableTest (join.aliasName.getD "") then
    .error "Invalid alias"
  else do
    let on2 ← validateWhereList join.onConds
      (joinWhereContext allowedFieldPattern allowedOperators allowedLogicalOperators
        maxValueLength preventSqlKeywords)
    .ok { join with onConds := on2 }

/-- `query.joins.map(validateJoinCondition)`. -/
def validateJoinList (allowedFieldPattern : String → Bool)
    (allowedOperators allowedLogicalOperators : Option (List String))
    (maxValueLength : Option Nat) (preventSqlKeywords : Option Bool) :
    List JoinCondition → Except String (List JoinCondition)
  | [] => .ok []
  | j :: rest => do
      let j2 ← validateJoinCondition allowedFieldPattern j allowedOperators
        allowedLogicalOperators maxValueLength preventSqlKeywords
      let rest2 ← validateJoinList allowedFieldPattern allowedOperators
        allowedLogicalOperators maxValueLength preventSqlKeywords rest
      .ok (j2 :: rest2)

/-- The keyword screen applied to each select/groupBy field: some dot part
equals a keyword or contains it as a whole word. -/
def fieldHasSqlKeyword (field : String) : Bool :=
  (splitOnChar '.' field).any fun part =>
    let lowerPart := strToLower part
    SQL_KEYWORDS.any fun keyword =>
      lowerPart == keyword || containsWholeWord keyword lowerPart

/-- The per-entry body of `validateAndSanitizeFields`: `*` always passes;
otherwise the entry is checked against `DANGEROUS_PATTERNS`, the hardcoded
`SAFE_FIELD_PATTERN`, and the keyword screen, and returned unchanged. -/
def validateFieldEntry (field : String) : Except String String :=
  if field == "*" then .ok field
  else if matchesDangerous field then
    .error "Field name contains dangerous patterns"
  else if !safeFieldTest field then
    .error "Invalid field name"
  else if fieldHasSqlKeyword field then
    .error "Field name contains SQL keywords"
  else .ok field

/-- `fields.map(validateFieldEntry)`. -/
def validateFieldList : List String → Except String (List String)
  | [] => .ok []
  | f :: rest => do
      let f2 ← validateFieldEntry f
      let rest2 ← validateFieldList rest
      .ok (f2 :: rest2)

/-- `validateAndSanitizeFields` from validation.ts.  The
`allowedFieldPattern` parameter is accepted but — as in the source — never
used: the per-entry check uses the hardcoded `SAFE_FIELD_PATTERN`. -/
def validateAndSanitizeFields (maxFields : Nat) (_context : String)
    (_allowedFieldPattern : String → Bool) (fields : Option (List String)) :
    Except String (Option (List String)) :=
  match fields with
  | none => .ok none
  | some fs =>
      if fs.length > maxFields then .error "Too many fields"
      else do
        let fs2 ← validateFieldList fs
        .ok (some fs2)

/-- Per-entry body of `validateAndSanitizeOrderBy`: field checked against
the allowed pattern, the pair rebuilt. -/
def validateOrderByList (allowedFieldPattern : String → Bool) :
    List OrderByClause → Except String (List OrderByClause)
  | [] => .ok []
  | o :: rest =>
      if !allowedFieldPattern o.field then .error "Invalid field name"
      else do
        let rest2 ← validateOrderByList allowedFieldPattern rest
        .ok ({ field := o.field, direction := o.direction } :: rest2)

/-- `validateAndSanitizeOrderBy` from validation.ts. -/
def validateAndSanitizeOrderBy (allowedFieldPattern : String → Bool)
    (orderBy : Option (List OrderByClause)) :
    Except String (Option (List OrderByClause)) :=
  match orderBy with
  | none => .ok none
  | some os => do
      let os2 ← validateOrderByList allowedFieldPattern os
      .ok (some os2)

/-- `validateAndSanitizeLimit`: an absent limit passes; a present one must
be a positive integer (integrality is inherent to the `Int` model). -/
def validateAndSanitizeLimit : Option Int → Except String (Option Int)
  | none => .ok none
  | some l => if l ≤ 0 then .error "Limit must be a positive integer" else .ok (some l)

/-- `validateAndSanitizeOffset`: an absent offset passes; a present one
must be a non-negative integer. -/
def validateAndSanitizeOffset : Option Int → Except String (Option Int)
  | none => .ok none
  | some o => if o < 0 then .error "Offset must be a non-negative integer" else .ok (some o)

/-- The `where` stage of `validateAndSanitizeQuery`: an array is validated
elementwise, a single clause is validated and wrapped in a one-element
array, an absent `where` stays absent. -/
def validateWhereOpt (context : WhereContext) :
    Option WhereInput → Except String (Option WhereInput)
  | none => .ok none
  | some (.many cs) => do
      let cs2 ← validateWhereList cs context
      .ok (some (.many cs2))
  | some (.one c) => do
      let c2 ← validateAndSanitizeWhereClause c context
      .ok (some (.many [c2]))

/-- The `having` stage: `query.having.map(validateAndSanitizeWhereClause)`. -/
def validateHavingOpt (context : WhereContext) :
    Option (List WhereClause) → Except String (Option (List WhereClause))
  | none => .ok none
  | some cs => do
      let cs2 ← validateWhereList cs context
      .ok (some cs2)

/-- The `joins` stage: `query.joins ? query.joins.map(validateJoinCondition) :
undefined`. -/
def validateJoinsOpt (allowedFieldPattern : String → Bool)
    (allowedOperators allowedLogicalOperators : Option (List String))
    (maxValueLength : Option Nat) (preventSqlKeywords : Option Bool) :
    Option (List JoinCondition) → Except String (Option (List JoinCondition))
  | none => .ok none
  | some js => do
      let js2 ← validateJoinList allowedFieldPattern allowedOperators
        allowedLogicalOperators maxValueLength preventSqlKeywords js
      .ok (some js2)

/-- The depth-0 context `validateAndSanitizeQuery` hands to the where and
having stages, assembled from the destructured options and their module
defaults. -/
def queryWhereContext (options : ValidationOptions) : WhereContext :=
  { depth := 0, maxDepth := options.maxQueryDepth.getD 5,
    maxConditions := options.maxConditionsPerGroup.getD 10,
    allowedOperators := options.allowedOperators,
    allowedLogicalOperators := options.allowedLogicalOperators,
    allowedFieldPattern := options.allowedFieldPattern.getD allowedFieldTest,
    maxValueLength := options.maxValueLength,
    preventSqlKeywords := options.preventSqlKeywords }

/-- `validateAndSanitizeQuery` from validation.ts: destructure the options
with the module defaults (`MAX_QUERY_DEPTH = 5`,
`MAX_CONDITIONS_PER_GROUP = 10`, `MAX_SELECT_FIELDS = 50`,
`MAX_GROUP_BY_FIELDS = 10`, `ALLOWED_FIELD_PATTERN`), then validate
select, joins, where, groupBy, having, orderBy, limit and offset in that
order and reassemble the record. -/
def validateAndSanitizeQuery (query : QueryOptions) (options : ValidationOptions) :
    Except String QueryOptions := do
  let maxSelectFields := options.maxSelectFields.getD 50
  let maxGroupByFields := options.maxGroupByFields.getD 10
  let allowedFieldPattern := options.allowedFieldPattern.getD allowedFieldTest
  let context := queryWhereContext options
  let select ← validateAndSanitizeFields maxSelectFields "select" allowedFieldPattern
    query.select
  let joins ← validateJoinsOpt allowedFieldPattern options.allowedOperators
    options.allowedLogicalOperators options.maxValueLength
    options.preventSqlKeywords query.joins
  let whereCs ← validateWhereOpt context query.whereCs
  let groupBy ← validateAndSanitizeFields maxGroupByFields "groupBy" allowedFieldPattern
    query.groupBy
  let having ← validateHavingOpt context query.having
  let orderBy ← validateAndSanitizeOrderBy allowedFieldPattern query.orderBy
  let limit ← validateAndSanitizeLimit query.limit
  let offset ← validateAndSanitizeOffset query.offset
  pure { select := select, joins := joins, whereCs := whereCs, groupBy := groupBy,
         having := having, orderBy := orderBy, limit := limit, offset := offset }

/-! ### Request parser (parser.ts) -/

/-- A request body: a single row object or an array of rows. -/
inductive BodyVal where
  | row (r : Row)
  | rows (rs : List Row)

/-- `RestQLRequest` from types.ts (the adapter-produced envelope). -/
structure RestQLRequest where
  method : String
  path : String
  query : QueryOptions
  body : Option BodyVal := none

/-- The object spread `{ ...body, id }`: replace an existing `id` property
in place, else append it. -/
def setProp (row : Row) (key : String) (v : Value) : Row :=
  if (List.lookup key row).isSome then
    row.map (fun kv => if kv.1 == key then (key, v) else kv)
  else row ++ [(key, v)]

/-- `parseRequest` from parser.ts.  The path is split on `/` with empty
segments dropped (`split("/").filter(Boolean)`); a missing segment is the
empty string, matching JavaScript's falsy `undefined`.  Branches the source
only reaches by crashing at runtime (a non-array body for a bulk PUT or
DELETE) are represented as errors. -/
def parseRequest (request : RestQLRequest) : Except String ParsedRequest :=
  let pathParts := (splitOnChar '/' request.path).filter (fun s => s != "")
  let table := pathParts.getD 0 ""
  let id := pathParts.getD 1 ""
  match request.method with
  | "POST" =>
      .ok { operation := "CREATE", table := table,
            values := some (match request.body with
              | some (.rows rs) => rs
              | some (.row r) => [r]
              | none => [[]]) }
  | "GET" =>
      let q := request.query
      let parsed : ParsedRequest :=
        { operation := "READ", table := table,
          fields := some (q.select.getD ["*"]),
          whereCs := (match q.whereCs with
            | none => none
            | some (.many cs) => some cs
            | some (.one c) => some [c]),
          joins := q.joins, orderBy := q.orderBy, groupBy := q.groupBy,
          having := q.having, limit := q.limit, offset := q.offset }
      if id != "" && id != "list" then
        .ok { parsed with
              whereCs := some [.cond { field := "id", operator := "=", value := .str id }],
              limit := some 1 }
      else .ok parsed
  | "PUT" =>
      if id != "" then
        match request.body with
        | some (.row r) =>
            .ok { operation := "UPDATE", table := table,
                  values := some [setProp r "id" (.str id)],
                  whereCs := some [.cond { field := "id", operator := "=", value := .str id }] }
        | _ => .error "PUT body is not a single object"
      else
        match request.body with
        | some (.rows rs) =>
            .ok { operation := "UPDATE", table := table, values := some rs }
        | _ => .error "PUT body is not an array"
  | "DELETE" =>
      if id != "" then
        .ok { operation := "DELETE", table := table,
              whereCs := some [.cond { field := "id", operator := "=", value := .str id }] }
      else
        match request.body with
        | some (.rows rs) =>
            .ok { operation := "DELETE", table := table,
                  whereCs := some (rs.map (fun item =>
                    .cond { field := "id", operator := "=",
                            value := (List.lookup "id" item).getD .null })) }
        | _ => .error "DELETE body is not an array"
  | m => .error ("Unsupported HTTP method: " ++ m)

/-! ### SQL compiler (builder.ts, class SQLBuilder) -/

/-- The quote-passthrough test at the top of `escapeIdentifier`: an
identifier already wrapped in double quotes or backticks is returned
unchanged. -/
def alreadyEscaped (identifier : String) : Bool :=
  (strStartsWith identifier "\"" && strEndsWith identifier "\"")
    || (strStartsWith identifier "`" && strEndsWith identifier "`")

/-- The dialect switch at the bottom of `escapeIdentifier`. -/
def escapeIdentifierBase (d : SQLDialect) (identifier : String) : String :=
  match d with
  | .mysql => "`" ++ identifier ++ "`"
  | .postgres => "\"" ++ identifier ++ "\""
  | .sqlite => "\"" ++ identifier ++ "\""

/-- The recursive call of `escapeIdentifier` on one dot-free component of a
qualified name (such a component can contain no further dot, so the
recursion stare at depth one). -/
def escapeIdentifierPart (d : SQLDialect) (part : String) : String :=
  if alreadyEscaped part then part else escapeIdentifierBase d part

/-- `SQLBuilder.escapeIdentifier`: pass through already-quoted identifiers,
escape each component of a dotted qualified name, else quote per dialect. -/
def escapeIdentifier (d : SQLDialect) (identifier : String) : String :=
  if alreadyEscaped identifier then identifier
  else if strContains identifier '.' then
    String.intercalate "." ((splitOnChar '.' identifier).map (escapeIdentifierPart d))
  else escapeIdentifierBase d identifier

/-- `SQLBuilder.getTableName`: prefix the escaped schema when the config
carries a truthy schema. -/
def getTableName (cfg : RestQLConfig) (table : String) : String :=
  let escapedTable := escapeIdentifier cfg.dialect table
  if isTruthyStr cfg.schema then
    escapeIdentifier cfg.dialect (cfg.schema.getD "") ++ "." ++ escapedTable
  else escapedTable

mutual

/-- `SQLBuilder.buildWhereClause`: a condition renders as
`<escaped field> <operator> <placeholder>` and contributes its value; a
group renders its children with a running parameter offset, joins them
with the group operator, parenthesises when the operator is OR, the group
is negated, or an AND group sits directly under an OR parent, and prefixes
NOT when negated. -/
def buildWhereClause (d : SQLDialect) (clause : WhereClause) (paramOffset : Nat)
    (parentOperator : Option String) : String × List Value :=
  match clause with
  | .cond c =>
      (escapeIdentifier d c.field ++ " " ++ c.operator ++ " "
        ++ (if d = .postgres then "$" ++ toString (paramOffset + 1) else "?"),
       [c.value])
  | .group operator conditions negated =>
      let results := buildWhereListGroup d operator conditions paramOffset
      let sql := String.intercalate (" " ++ operator ++ " ") (results.map (·.1))
      let values := (results.map (·.2)).flatten
      let needsParentheses := operator == "OR" || negated.getD false
        || (operator == "AND" && parentOperator == some "OR")
      let finalSql := if needsParentheses then "(" ++ sql ++ ")" else sql
      (if negated.getD false then "NOT " ++ finalSql else finalSql, values)

/-- The `clause.conditions.map` loop of `buildWhereClause`, threading
`currentOffset += result.values.length` between children. -/
def buildWhereListGroup (d : SQLDialect) (operator : String) (cs : List WhereClause)
    (paramOffset : Nat) : List (String × List Value) :=
  match cs with
  | [] => []
  | c :: rest =>
      let r := buildWhereClause d c paramOffset (some operator)
      r :: buildWhereListGroup d operator rest (paramOffset + r.2.length)

end

/-- One entry of a join's `on` list inside `buildSelect`: a condition whose
value is a string containing a dot is rendered as a column-to-column
comparison with no bound value; everything else goes through
`buildWhereClause` at the current offset. -/
def buildOnEntry (d : SQLDialect) (clause : WhereClause) (paramOffset : Nat) :
    String × List Value :=
  match clause with
  | .cond c =>
      match c.value with
      | .str s =>
          if strContains s '.' then
            (escapeIdentifier d c.field ++ " " ++ c.operator ++ " "
              ++ escapeIdentifier d s, [])
          else buildWhereClause d clause paramOffset none
      | _ => buildWhereClause d clause paramOffset none
  | _ => buildWhereClause d clause paramOffset none

/-- The `joins.map` loop of `buildSelect`.  Within one join every `on` entry
is compiled at the same offset `params.length` (the source reads the length
before pushing); the accumulated parameters are appended only after the
whole `on` list is rendered, then the next join sees the grown list. -/
def buildJoinClauses (cfg : RestQLConfig) :
    List JoinCondition → List Value → List String × List Value
  | [], params => ([], params)
  | join :: rest, params =>
      let joinTable := getTableName cfg join.table
      let joinResults := join.onConds.map (fun clause =>
        buildOnEntry cfg.dialect clause params.length)
      let onClause := String.intercalate " AND " (joinResults.map (·.1))
      let params2 := params ++ (joinResults.map (·.2)).flatten
      let clauseStr := join.type ++ " JOIN " ++ joinTable
        ++ (if isTruthyStr join.aliasName then
              " AS " ++ escapeIdentifier cfg.dialect (join.aliasName.getD "")
            else "")
        ++ " ON " ++ onClause
      let restResult := buildJoinClauses cfg rest params2
      (clauseStr :: restResult.1, restResult.2)

/-- `SQLBuilder.buildSelect`: SELECT list, FROM, JOIN clauses, WHERE,
GROUP BY, HAVING, ORDER BY, LIMIT, OFFSET, in that order.  The `where` and
`having` lists are each mapped with the offset frozen at the current
`params.length`, exactly as the source's `.map` does. -/
def buildSelect (cfg : RestQLConfig) (request : ParsedRequest) : RestQLResponse :=
  let fields := request.fields.getD ["*"]
  let whereCs := request.whereCs.getD []
  let joins := request.joins.getD []
  let groupBy := request.groupBy.getD []
  let having := request.having.getD []
  let orderBy := request.orderBy.getD []
  let tableName := getTableName cfg request.table
  let escapedFields := fields.map (fun f =>
    if f == "*" then "*" else escapeIdentifier cfg.dialect f)
  let sql0 := "SELECT " ++ String.intercalate ", " escapedFields ++ " FROM " ++ tableName
  let (joinClauses, params1) := buildJoinClauses cfg joins []
  let sql1 := if joins.length > 0 then
      sql0 ++ " " ++ String.intercalate " " joinClauses
    else sql0
  let whereResults := whereCs.map (fun w =>
    buildWhereClause cfg.dialect w params1.length none)
  let sql2 := if whereCs.length > 0 then
      sql1 ++ " WHERE " ++ String.intercalate " AND " (whereResults.map (·.1))
    else sql1
  let params2 := if whereCs.length > 0 then
      params1 ++ (whereResults.map (·.2)).flatten
    else params1
  let sql3 := if groupBy.length > 0 then
      sql2 ++ " GROUP BY "
        ++ String.intercalate ", " (groupBy.map (escapeIdentifier cfg.dialect))
    else sql2
  let havingResults := having.map (fun h =>
    buildWhereClause cfg.dialect h params2.length none)
  let sql4 := if having.length > 0 then
      sql3 ++ " HAVING " ++ String.intercalate " AND " (havingResults.map (·.1))
    else sql3
  let params4 := if having.length > 0 then
      params2 ++ (havingResults.map (·.2)).flatten
    else params2
  let sql5 := if orderBy.length > 0 then
      sql4 ++ " ORDER BY " ++ String.intercalate ", " (orderBy.map (fun o =>
        escapeIdentifier cfg.dialect o.field ++ " " ++ o.direction))
    else sql4
  let sql6 := match request.limit with
    | some l => sql5 ++ " LIMIT " ++ toString l
    | none => sql5
  let sql7 := match request.offset with
    | some o => sql6 ++ " OFFSET " ++ toString o
    | none => sql6
  { sql := sql7, params := params4 }

/-- The placeholder tuples of `buildInsert`, one parenthesised group per
row, numbered by the running `paramCounter` (postgres) or `?`. -/
def insertPlaceholders (d : SQLDialect) (nFields : Nat) :
    Nat → Nat → List String
  | 0, _ => []
  | n + 1, counter =>
      ("(" ++ String.intercalate ", " ((List.range nFields).map (fun j =>
          if d = .postgres then "$" ++ toString (counter + j) else "?")) ++ ")")
        :: insertPlaceholders d nFields n (counter + nFields)

/-- `SQLBuilder.buildInsert`: field list from the first row's keys, one
placeholder tuple per row, parameters flattened row-major in key order of
the first row. -/
def buildInsert (cfg : RestQLConfig) (request : ParsedRequest) :
    Except String RestQLResponse :=
  let values := request.values.getD []
  match values with
  | [] => .error "No values provided for insert"
  | v0 :: _ =>
      let fields := v0.map (·.1)
      let tableName := getTableName cfg request.table
      let escapedFields := fields.map (escapeIdentifier cfg.dialect)
      let placeholders := String.intercalate ", "
        (insertPlaceholders cfg.dialect fields.length values.length 1)
      let sql := "INSERT INTO " ++ tableName ++ " ("
        ++ String.intercalate ", " escapedFields ++ ") VALUES " ++ placeholders
      let params := (values.map (fun v =>
        fields.map (fun f => (List.lookup f v).getD .null))).flatten
      .ok { sql := sql, params := params }

/-- `(w as WhereCondition).value`, the cast used by the bulk-delete path
(only applied when every clause is a condition; a group would read
`undefined`, modelled as null). -/
def whereValue : WhereClause → Value
  | .cond c => c.value
  | .group _ _ _ => .null

/-- `SQLBuilder.buildUpdate`.  One row: `SET field = placeholder` per
non-id entry, then a WHERE from the request's predicates, each predicate
compiled at the offset frozen at the current parameter count.  Several
rows: per non-id field of the first row a
`field = CASE WHEN id = p THEN p ... ELSE field END` fragment whose postgres
placeholders restart at `$1` for every field, a `WHERE id IN (...)` whose
postgres placeholders also restart at `$1`, and parameters
`[v.id, ...non-id values]` flattened per row.  (Both branches re-escape the
already escaped table name, which the quote passthrough leaves unchanged.) -/
def buildUpdate (cfg : RestQLConfig) (request : ParsedRequest) :
    Except String RestQLResponse :=
  let values := request.values.getD []
  let whereCs := request.whereCs.getD []
  let tableName := getTableName cfg request.table
  match values with
  | [] => .error "No values provided for update"
  | [v] =>
      let entries := v.filter (fun kv => kv.1 != "id")
      let updateFields := entries.enum.map (fun (i, kv) =>
        escapeIdentifier cfg.dialect kv.1 ++ " = "
          ++ (if cfg.dialect = .postgres then "$" ++ toString (i + 1) else "?"))
      let sqlBase := "UPDATE " ++ escapeIdentifier cfg.dialect tableName
        ++ " SET " ++ String.intercalate ", " updateFields
      let params0 := entries.map (·.2)
      if whereCs.length > 0 then
        let whereResults := whereCs.map (fun w =>
          buildWhereClause cfg.dialect w params0.length none)
        .ok { sql := sqlBase ++ " WHERE "
                ++ String.intercalate " AND " (whereResults.map (·.1)),
              params := params0 ++ (whereResults.map (·.2)).flatten }
      else
        .ok { sql := sqlBase, params := params0 }
  | vs@(v0 :: _ :: _) =>
      let updateFields := (v0.filter (fun kv => kv.1 != "id")).map (fun kv =>
        let cases := String.intercalate " " ((List.range vs.length).map (fun i =>
          "WHEN id = " ++ (if cfg.dialect = .postgres then "$" ++ toString (i * 2 + 1) else "?")
            ++ " THEN "
            ++ (if cfg.dialect = .postgres then "$" ++ toString (i * 2 + 2) else "?")))
        escapeIdentifier cfg.dialect kv.1 ++ " = CASE " ++ cases
          ++ " ELSE " ++ escapeIdentifier cfg.dialect kv.1 ++ " END")
      let sql := "UPDATE " ++ escapeIdentifier cfg.dialect tableName
        ++ " SET " ++ String.intercalate ", " updateFields
        ++ " WHERE id IN ("
        ++ String.intercalate ", " ((List.range vs.length).map (fun i =>
            if cfg.dialect = .postgres then "$" ++ toString (i + 1) else "?"))
        ++ ")"
      let params := (vs.map (fun v =>
        (List.lookup "id" v).getD .null
          :: (v.filter (fun kv => kv.1 != "id")).map (·.2))).flatten
      .ok { sql := sql, params := params }

/-- `SQLBuilder.buildDelete`: no predicates gives a bare `DELETE FROM`;
more than one predicate, all of shape `id = value`, takes the bulk path
(`"id" = ANY($1)` with the id array as the single parameter on postgres,
an IN list of `?` placeholders otherwise); any other predicate list is
compiled as a normal WHERE with the offset frozen at 0. -/
def buildDelete (cfg : RestQLConfig) (request : ParsedRequest) : RestQLResponse :=
  let whereCs := request.whereCs.getD []
  let tableName := getTableName cfg request.table
  if whereCs.length > 0 then
    let isBulkDelete := whereCs.length > 1 && whereCs.all (fun w =>
      match w with
      | .cond c => c.field == "id" && c.operator == "="
      | .group _ _ _ => false)
    if isBulkDelete then
      let ids := whereCs.map whereValue
      if cfg.dialect = .postgres then
        { sql := "DELETE FROM " ++ tableName ++ " WHERE \"id\" = ANY($1)",
          params := [.arr ids] }
      else
        { sql := "DELETE FROM " ++ tableName ++ " WHERE "
            ++ escapeIdentifier cfg.dialect "id" ++ " IN ("
            ++ String.intercalate ", " (ids.map (fun _ =>
                if cfg.dialect = .postgres then "$?" else "?")) ++ ")",
          params := ids }
    else
      let whereResults := whereCs.map (fun w => buildWhereClause cfg.dialect w 0 none)
      { sql := "DELETE FROM " ++ tableName ++ " WHERE "
          ++ String.intercalate " AND " (whereResults.map (·.1)),
        params := (whereResults.map (·.2)).flatten }
  else
    { sql := "DELETE FROM " ++ tableName, params := [] }

/-- `SQLBuilder.build`: dispatch on the operation tag. -/
def build (cfg : RestQLConfig) (request : ParsedRequest) :
    Except String RestQLResponse :=
  match request.operation with
  | "CREATE" => buildInsert cfg request
  | "READ" => .ok (buildSelect cfg request)
  | "UPDATE" => buildUpdate cfg request
  | "DELETE" => .ok (buildDelete cfg request)
  | op => .error ("Unsupported operation: " ++ op)

/-! ### Counting helpers and concrete inputs used by the claims -/

mutual

/-- Number of leaf `Condition`s of a predicate tree. -/
def countLeaves : WhereClause → Nat
  | .cond _ => 1
  | .group _ cs _ => countLeavesList cs

/-- Number of leaf `Condition`s of a clause list. -/
def countLeavesList : List WhereClause → Nat
  | [] => 0
  | c :: rest => countLeaves c + countLeavesList rest

end

/-- The column-reference test of the join handling in `buildSelect`:
`typeof value === "string" && value.includes(".")`. -/
def isColumnRefValue : Value → Bool
  | .str s => strContains s '.'
  | _ => false

/-- Bound parameters contributed by one immediate entry of a join's `on`
list: a directly-placed condition with a dotted string value contributes
none; every other entry contributes one parameter per leaf condition. -/
def onEntryParamCount : WhereClause → Nat
  | .cond c => if isColumnRefValue c.value then 0 else 1
  | .group _ cs _ => countLeavesList cs

/-- Bound parameters contributed by a whole join list. -/
def joinsParamCount (js : List JoinCondition) : Nat :=
  (js.map (fun j => (j.onConds.map onEntryParamCount).sum)).sum

mutual

/-- Leaf conditions whose value is a dotted identifier string, at any
depth — the set the claim exempts from parameter binding. -/
def dottedLeaves : WhereClause → Nat
  | .cond c => if isColumnRefValue c.value then 1 else 0
  | .group _ cs _ => dottedLeavesList cs

/-- `dottedLeaves` summed over a clause list. -/
def dottedLeavesList : List WhereClause → Nat
  | [] => 0
  | c :: rest => dottedLeaves c + dottedLeavesList rest

end

/-- Occurrences of a character in a string (used to count `?`
placeholders). -/
def countChar (s : String) (c : Char) : Nat := s.data.count c

/-- A string the validator can never accept as (part of) a value: it
matches `DANGEROUS_PATTERNS` or fails `SAFE_VALUE_PATTERN`. -/
def dangerousJSString (s : String) : Bool := matchesDangerous s || !safeValueTest s

mutual

/-- All leaf condition values of a predicate tree. -/
def clauseValues : WhereClause → List Value
  | .cond c => [c.value]
  | .group _ cs _ => clauseListValues cs

/-- All leaf condition values of a clause list. -/
def clauseListValues : List WhereClause → List Value
  | [] => []
  | c :: rest => clauseValues c ++ clauseListValues rest

end

/-- Every condition value reachable by `validateAndSanitizeQuery`: the
`where` input, the `having` list and each join's `on` list. -/
def queryLeafValues (q : QueryOptions) : List Value :=
  (match q.whereCs with
   | none => []
   | some (.one c) => clauseValues c
   | some (.many cs) => clauseListValues cs)
  ++ (match q.having with
      | none => []
      | some cs => clauseListValues cs)
  ++ (match q.joins with
      | none => []
      | some js => (js.map (fun j => clauseListValues j.onConds)).flatten)

/-- Scenario A/B descriptor: READ on `users`, fields id/name, one AND group
over `age > 18` and `status = "active"`. -/
def c1Request : ParsedRequest :=
  { operation := "READ", table := "users", fields := some ["id", "name"],
    whereCs := some [.group "AND"
      [.cond { field := "age", operator := ">", value := .int 18 },
       .cond { field := "status", operator := "=", value := .str "active" }] none] }

/-- A join whose `on` list holds a group wrapping a column-reference
condition (`u.id = o.user_id` nested one level deep). -/
def c2Join : JoinCondition :=
  { type := "LEFT", table := "o", aliasName := none,
    onConds := [.group "AND"
      [.cond { field := "u.id", operator := "=", value := .str "o.user_id" }] none] }

/-- A query whose single where condition has the field `a--b`, which
matches the `--` dangerous pattern yet passes the default field pattern. -/
def c3Query : QueryOptions :=
  { whereCs := some (.one (.cond { field := "a--b", operator := "=", value := .int 1 })) }

/-- The classic injection payload of Scenario D. -/
def dropTableStr : String := singleQuote.toString ++ "; DROP TABLE users; --"

/-- A query carrying the Scenario D payload as a condition value. -/
def c4Query : QueryOptions :=
  { whereCs := some (.one (.cond
      { field := "email", operator := "=", value := .str dropTableStr })) }

/-- One `id = v` equality condition per id value. -/
def idEqConds (ids : List Value) : List WhereClause :=
  ids.map (fun v => .cond { field := "id", operator := "=", value := v })

/-- A DELETE descriptor whose predicates are exactly the id equalities. -/
def bulkDeleteRequest (table : String) (ids : List Value) : ParsedRequest :=
  { operation := "DELETE", table := table, whereCs := some (idEqConds ids) }

/-- Two-row UPDATE descriptor (rows `(id 1, name "a")` and
`(id 2, name "b")`). -/
def c6Request : ParsedRequest :=
  { operation := "UPDATE", table := "users",
    values := some [[("id", .int 1), ("name", .str "a")],
                    [("id", .int 2), ("name", .str "b")]] }

/-- A join with two bound-value conditions in a single `on` list. -/
def c7Join : JoinCondition :=
  { type := "INNER", table := "a", aliasName := none,
    onConds := [.cond { field := "a.x", operator := "=", value := .int 5 },
                .cond { field := "a.y", operator := "=", value := .int 6 }] }

/-- READ descriptor wrapping `c7Join`. -/
def c7Request : ParsedRequest :=
  { operation := "READ", table := "t", joins := some [c7Join] }

/-- A GET request for `/users/42` whose query string carries its own
select, predicate and limit. -/
def c8Request : RestQLRequest :=
  { method := "GET", path := "/users/42",
    query :=
      { select := some ["id", "name"],
        whereCs := some (.many [.cond { field := "age", operator := ">", value := .int 18 }]),
        limit := some 50 } }

/-- A query exercising select, a single-clause where, orderBy and limit. -/
def c9Query : QueryOptions :=
  { select := some ["id"],
    whereCs := some (.one (.cond { field := "age", operator := ">", value := .int 18 })),
    orderBy := some [{ field := "id", direction := "ASC" }],
    limit := some 10 }

/-- A DELETE descriptor with no predicates at all. -/
def c10Request : ParsedRequest := { operation := "DELETE", table := "users" }

/-! ### Theorems -/

/-- Claim C1: the READ descriptor on table users with fields id, name and a
single AND group of `age > 18` and `status = "active"` compiles on sqlite
to `SELECT "id", "name" FROM "users" WHERE "age" > ? AND "status" = ?`
with params `[18, "active"]`, and on postgres to the same SQL with
placeholders `$1` and `$2` and the same params. -/
theorem c1_scenario_ab_select_compilation :
    build { dialect := .sqlite } c1Request =
      .ok { sql := "SELECT \"id\", \"name\" FROM \"users\" WHERE \"age\" > ? AND \"status\" = ?",
            params := [.int 18, .str "active"] }
    ∧ build { dialect := .postgres } c1Request =
      .ok { sql := "SELECT \"id\", \"name\" FROM \"users\" WHERE \"age\" > $1 AND \"status\" = $2",
            params := [.int 18, .str "active"] } :=
  ⟨rfl, rfl⟩

/-- Claim C2, counterexample: for a join whose `on` list holds a group
wrapping the column-reference condition `u.id = o.user_id`, the compiler
binds one parameter (the dotted string itself), although the claim
predicts zero (one leaf, one dotted-identifier condition inside `on`). -/
theorem c2_counterexample_nested_column_ref :
    (buildJoinClauses { dialect := .postgres } [c2Join] []).2 = [.str "o.user_id"]
    ∧ countLeavesList c2Join.onConds = 1
    ∧ dottedLeavesList c2Join.onConds = 1
    ∧ (buildJoinClauses { dialect := .postgres } [c2Join] []).2.length ≠
        countLeavesList c2Join.onConds - dottedLeavesList c2Join.onConds :=
  ⟨rfl, rfl, rfl, by decide⟩

/-- Claim C3, counterexample: the field `a--b` matches the dangerous
pattern `--`, yet a where condition carrying it survives
`validateAndSanitizeQuery` under the default options unchanged. -/
theorem c3_counterexample_dangerous_field_survives :
    matchesDangerous "a--b" = true
    ∧ validateAndSanitizeQuery c3Query {} =
        .ok { whereCs := some (.many
          [.cond { field := "a--b", operator := "=", value := .int 1 }]) } :=
  ⟨rfl, rfl⟩

/-- Claim C5, counterexample: on mysql the bulk-delete identifier is
backtick-escaped, so the compiled SQL does not contain the claimed
fragment `WHERE "id" IN (?, ?)`. -/
theorem c5_counterexample_mysql_backticks :
    (buildDelete { dialect := .mysql } (bulkDeleteRequest "users" [.int 1, .int 2])).sql
      = "DELETE FROM `users` WHERE `id` IN (?, ?)"
    ∧ containsSubstr
        (buildDelete { dialect := .mysql } (bulkDeleteRequest "users" [.int 1, .int 2])).sql
        "WHERE \"id\" IN (?, ?)" = false :=
  ⟨rfl, rfl⟩

/-- Claim C6: evaluating the bulk-update branch at two rows
`(id 1, name "a")`, `(id 2, name "b")` shows the parameter list does not
match the placeholders: on mysql the SQL contains six `?` but only four
parameters are produced, and on postgres the CASE placeholders `$1..$4`
are reused as `$1, $2` inside the IN clause. -/
theorem c6_bulk_update_param_mismatch :
    buildUpdate { dialect := .mysql } c6Request =
      .ok { sql := "UPDATE `users` SET `name` = CASE WHEN id = ? THEN ? WHEN id = ? THEN ? ELSE `name` END WHERE id IN (?, ?)",
            params := [.int 1, .str "a", .int 2, .str "b"] }
    ∧ countChar "UPDATE `users` SET `name` = CASE WHEN id = ? THEN ? WHEN id = ? THEN ? ELSE `name` END WHERE id IN (?, ?)" '?' = 6
    ∧ buildUpdate { dialect := .postgres } c6Request =
      .ok { sql := "UPDATE \"users\" SET \"name\" = CASE WHEN id = $1 THEN $2 WHEN id = $3 THEN $4 ELSE \"name\" END WHERE id IN ($1, $2)",
            params := [.int 1, .str "a", .int 2, .str "b"] } :=
  ⟨rfl, rfl, rfl⟩

/-- Claim C7: evaluating a postgres SELECT whose single join carries two
bound-value conditions in one `on` list: both conditions render as `$1`
(the offset is read before any value is pushed), the params list still
holds both values, and `$2` never appears. -/
theorem c7_join_placeholders_not_sequential :
    buildSelect { dialect := .postgres } c7Request =
      { sql := "SELECT * FROM \"t\" INNER JOIN \"a\" ON \"a\".\"x\" = $1 AND \"a\".\"y\" = $1",
        params := [.int 5, .int 6] }
    ∧ containsSubstr (buildSelect { dialect := .postgres } c7Request).sql "$2" = false :=
  ⟨rfl, rfl⟩

/-- Claim C10: a DELETE descriptor whose where list is empty or absent
compiles without error to a bare `DELETE FROM` of the escaped table name
with an empty parameter list. -/
theorem c10_bodyless_delete_unconditioned (cfg : RestQLConfig) (request : ParsedRequest)
    (hop : request.operation = "DELETE") (hw : request.whereCs.getD [] = []) :
    build cfg request =
      .ok { sql := "DELETE FROM " ++ getTableName cfg request.table, params := [] } := by
  simp [build, buildDelete, hop, hw]

/-- Witness for C10 at the concrete empty-where DELETE on users, mysql. -/
theorem c10_bodyless_delete_unconditioned_witness :
    build { dialect := .mysql } c10Request =
      .ok { sql := "DELETE FROM `users`", params := [] } :=
  c10_bodyless_delete_unconditioned { dialect := .mysql } c10Request rfl rfl

mutual

/-- `buildWhereClause` emits exactly one bound value per leaf condition. -/
theorem buildWhereClause_values_length (d : SQLDialect) (c : WhereClause) (off : Nat)
    (p : Option String) : (buildWhereClause d c off p).2.length = countLeaves c := by
  cases c with
  | cond c => simp [buildWhereClause, countLeaves]
  | group operator conditions negated =>
      simp only [buildWhereClause, countLeaves]
      have h := buildWhereListGroup_values_length d operator conditions off
      simpa [List.length_flatten] using h

/-- List form of `buildWhereClause_values_length`. -/
theorem buildWhereListGroup_values_length (d : SQLDialect) (operator : String)
    (cs : List WhereClause) (off : Nat) :
    ((buildWhereListGroup d operator cs off).map (·.2)).flatten.length
      = countLeavesList cs := by
  cases cs with
  | nil => simp [buildWhereListGroup, countLeavesList]
  | cons c rest =>
      simp only [buildWhereListGroup, countLeavesList, List.map_cons, List.flatten_cons,
        List.length_append]
      rw [buildWhereClause_values_length, buildWhereListGroup_values_length]

end

/-- One `on` entry contributes `onEntryParamCount` bound values. -/
theorem buildOnEntry_values_length (d : SQLDialect) (clause : WhereClause) (off : Nat) :
    (buildOnEntry d clause off).2.length = onEntryParamCount clause := by
  cases clause with
  | cond c =>
      obtain ⟨f, op, v⟩ := c
      cases v <;>
        simp [buildOnEntry, onEntryParamCount, isColumnRefValue, buildWhereClause] <;>
        split <;> simp [buildWhereClause]
  | group operator conditions negated =>
      have h := buildWhereClause_values_length d (.group operator conditions negated) off none
      simpa [buildOnEntry, onEntryParamCount, countLeaves] using h

/-- The join loop appends exactly `joinsParamCount` parameters. -/
theorem buildJoinClauses_params_length (cfg : RestQLConfig) (js : List JoinCondition)
    (ps : List Value) :
    (buildJoinClauses cfg js ps).2.length = ps.length + joinsParamCount js := by
  induction js generalizing ps with
  | nil => simp [buildJoinClauses, joinsParamCount]
  | cons j rest ih =>
      simp only [buildJoinClauses]
      rw [ih]
      simp [joinsParamCount, List.length_flatten, List.map_map, Function.comp_def,
        buildOnEntry_values_length]
      have heta : (List.map (fun x => onEntryParamCount x) j.onConds)
          = List.map onEntryParamCount j.onConds := rfl
      rw [heta]
      omega

/-- Claim C2 (amended): for every predicate tree the compiler returns one
bound parameter per leaf condition, and in a join's `on` list the
dotted-identifier exemption applies only to conditions placed directly in
the list — each immediate entry contributes `onEntryParamCount` (zero for
a directly-placed condition with a dotted string value, one per leaf
otherwise, including dotted-valued leaves nested inside groups). -/
theorem c2_amended_param_count :
    (∀ (d : SQLDialect) (c : WhereClause) (off : Nat) (p : Option String),
        (buildWhereClause d c off p).2.length = countLeaves c)
    ∧ ∀ (cfg : RestQLConfig) (js : List JoinCondition) (ps : List Value),
        (buildJoinClauses cfg js ps).2.length = ps.length + joinsParamCount js :=
  ⟨buildWhereClause_values_length, buildJoinClauses_params_length⟩

/-- Claim C3 (amended): a where/having Condition's field is screened only
by the `allowedFieldPattern`; validation of a condition succeeds — and
returns it unchanged — exactly when the field passes the pattern, the
operator passes the `allowedOperators` option, and the value passes
`validateValue`.  The dangerous-substring set is never consulted for the
field. -/
theorem c3_amended_field_checked_by_pattern_only (pat : String → Bool)
    (c : WhereCondition) (ops : Option (List String)) (len : Option Nat)
    (kw : Option Bool) :
    validateAndSanitizeWhereCondition pat c ops len kw = .ok c
      ↔ (pat c.field = true
          ∧ (match ops with | some l => l.contains c.operator | none => true) = true
          ∧ validateValue c.value len kw = .ok ()) := by
  unfold validateAndSanitizeWhereCondition
  cases hv : validateValue c.value len kw with
  | ok u =>
      cases u
      cases ops with
      | none => by_cases hp : pat c.field <;> simp_all [Except.bind, bind]
      | some l =>
          by_cases hp : pat c.field <;> by_cases hm : l.contains c.operator <;>
            simp_all [Except.bind, bind]
  | error m =>
      cases ops with
      | none => by_cases hp : pat c.field <;> simp_all [Except.bind, bind]
      | some l =>
          by_cases hp : pat c.field <;> by_cases hm : l.contains c.operator <;>
            simp_all [Except.bind, bind]

/-- Claim C5 (amended): a DELETE whose predicates are more than one id
equality takes the bulk path: postgres emits `WHERE "id" = ANY($1)` with
the id array as the single parameter; sqlite emits `WHERE "id" IN (?, ?)`
and mysql the same IN list with a backtick-escaped id, both with the id
values as parameters in order. -/
theorem c5_amended_bulk_delete (ids : List Value) (table : String)
    (h : 2 ≤ ids.length) :
    buildDelete { dialect := .postgres } (bulkDeleteRequest table ids) =
      { sql := "DELETE FROM " ++ escapeIdentifier .postgres table
          ++ " WHERE \"id\" = ANY($1)", params := [.arr ids] }
    ∧ buildDelete { dialect := .sqlite } (bulkDeleteRequest table ids) =
      { sql := "DELETE FROM " ++ escapeIdentifier .sqlite table
          ++ " WHERE \"id\" IN (" ++ String.intercalate ", " (ids.map fun _ => "?") ++ ")",
        params := ids }
    ∧ buildDelete { dialect := .mysql } (bulkDeleteRequest table ids) =
      { sql := "DELETE FROM " ++ escapeIdentifier .mysql table
          ++ " WHERE `id` IN (" ++ String.intercalate ", " (ids.map fun _ => "?") ++ ")",
        params := ids } := by
  have hlen : (idEqConds ids).length = ids.length := by simp [idEqConds]
  have hpos : (idEqConds ids).length > 0 := by omega
  have hgt : (idEqConds ids).length > 1 := by omega
  have hall : ((idEqConds ids).all fun w =>
      match w with
      | WhereClause.cond c => c.field == "id" && c.operator == "="
      | WhereClause.group _ _ _ => false) = true := by
    simp [idEqConds, List.all_map, Function.comp_def]
  have hmap : (idEqConds ids).map whereValue = ids := by
    simp [idEqConds, List.map_map, Function.comp_def, whereValue]
  have hid1 : escapeIdentifier .sqlite "id" = "\"id\"" := rfl
  have hid2 : escapeIdentifier .mysql "id" = "`id`" := rfl
  refine ⟨?_, ?_, ?_⟩ <;>
    · simp only [buildDelete, bulkDeleteRequest, Option.getD_some]
      rw [if_pos hpos, if_pos (by rw [hall]; simp [hgt])]
      simp [hmap, getTableName, isTruthyStr]
      try simp [String.append_assoc, hid1, hid2]

/-- Witness for C5 at ids `[1, 2]` on table users, postgres branch. -/
theorem c5_amended_bulk_delete_witness :
    2 ≤ ([Value.int 1, Value.int 2] : List Value).length
    ∧ buildDelete { dialect := .postgres } (bulkDeleteRequest "users" [.int 1, .int 2]) =
        { sql := "DELETE FROM \"users\" WHERE \"id\" = ANY($1)",
          params := [.arr [.int 1, .int 2]] } :=
  ⟨by decide, (c5_amended_bulk_delete [.int 1, .int 2] "users" (by decide)).1⟩

/-- Inversion for a successful `Except` bind. -/
theorem exceptBind_ok {α β : Type} {e : Except String α} {f : α → Except String β}
    {b : β} (h : e >>= f = .ok b) : ∃ a, e = .ok a ∧ f a = .ok b := by
  cases e with
  | ok a => exact ⟨a, rfl, by simpa [Bind.bind, Except.bind] using h⟩
  | error m => simp [Bind.bind, Except.bind] at h

/-- A string value that matches the dangerous patterns or fails the safe
character class never passes `validateValue`. -/
theorem validateValue_str_dangerous (s : String) (len : Option Nat) (kw : Option Bool)
    (hd : dangerousJSString s = true) (u : Unit) :
    validateValue (.str s) len kw ≠ .ok u := by
  intro h
  unfold validateValue at h
  simp only [Value.toJSString] at h
  unfold dangerousJSString at hd
  split_ifs at h <;> simp_all

/-- A successful condition validation returns the condition unchanged and
certifies its value. -/
theorem validateCondition_value_ok (pat : String → Bool) (c : WhereCondition)
    (ops : Option (List String)) (len : Option Nat) (kw : Option Bool)
    (c2 : WhereCondition)
    (h : validateAndSanitizeWhereCondition pat c ops len kw = .ok c2) :
    c2 = c ∧ validateValue c.value len kw = .ok () := by
  unfold validateAndSanitizeWhereCondition at h
  split_ifs at h
  all_goals try simp at h
  all_goals cases hv : validateValue c.value len kw with
  | ok u =>
      cases u
      simp [hv, Bind.bind, Except.bind] at h
      exact ⟨h.symm, rfl⟩
  | error m => simp [hv, Bind.bind, Except.bind] at h

mutual

/-- Every leaf value of a successfully validated clause passes
`validateValue` under the context's value options. -/
theorem validateWhereClause_values_ok (c : WhereClause) (ctx : WhereContext)
    (c2 : WhereClause) (h : validateAndSanitizeWhereClause c ctx = .ok c2) :
    ∀ v ∈ clauseValues c,
      validateValue v ctx.maxValueLength ctx.preventSqlKeywords = .ok () := by
  cases c with
  | cond cc =>
      intro v hvmem
      simp only [validateAndSanitizeWhereClause] at h
      split_ifs at h
      cases hvc : validateAndSanitizeWhereCondition ctx.allowedFieldPattern cc
          ctx.allowedOperators ctx.maxValueLength ctx.preventSqlKeywords with
      | ok c3 =>
          have hval := (validateCondition_value_ok _ _ _ _ _ _ hvc).2
          have hveq : v = cc.value := by simpa [clauseValues] using hvmem
          rw [hveq]; exact hval
      | error m => simp [hvc, Bind.bind, Except.bind] at h
  | group operator conditions negated =>
      intro v hvmem
      simp only [validateAndSanitizeWhereClause] at h
      split_ifs at h
      cases hlist : validateWhereList conditions { ctx with depth := ctx.depth + 1 } with
      | ok cs2 =>
          exact validateWhereList_values_ok conditions _ cs2 hlist v
            (by simpa [clauseValues] using hvmem)
      | error m => simp [hlist, Bind.bind, Except.bind] at h

/-- List form of `validateWhereClause_values_ok`. -/
theorem validateWhereList_values_ok (cs : List WhereClause) (ctx : WhereContext)
    (cs2 : List WhereClause) (h : validateWhereList cs ctx = .ok cs2) :
    ∀ v ∈ clauseListValues cs,
      validateValue v ctx.maxValueLength ctx.preventSqlKeywords = .ok () := by
  cases cs with
  | nil => intro v hv; simp [clauseListValues] at hv
  | cons c rest =>
      intro v hv
      simp only [validateWhereList] at h
      cases hc : validateAndSanitizeWhereClause c ctx with
      | error m => simp [hc, Bind.bind, Except.bind] at h
      | ok c2 =>
          cases hrest : validateWhereList rest ctx with
          | error m => simp [hc, hrest, Bind.bind, Except.bind] at h
          | ok rest2 =>
              simp only [clauseListValues, List.mem_append] at hv
              rcases hv with hv | hv
              · exact validateWhereClause_values_ok c ctx c2 hc v hv
              · exact validateWhereList_values_ok rest ctx rest2 hrest v hv

end

/-- Every leaf value inside the `on` lists of a successfully validated join
list passes `validateValue`. -/
theorem validateJoinList_values_ok (pat : String → Bool)
    (ops alos : Option (List String)) (len : Option Nat) (kw : Option Bool)
    (js js2 : List JoinCondition)
    (h : validateJoinList pat ops alos len kw js = .ok js2) :
    ∀ j ∈ js, ∀ v ∈ clauseListValues j.onConds, validateValue v len kw = .ok () := by
  induction js generalizing js2 with
  | nil => intro j hj; simp at hj
  | cons j0 rest ih =>
      intro j hj v hv
      simp only [validateJoinList] at h
      cases hj0 : validateJoinCondition pat j0 ops alos len kw with
      | error m => simp [hj0, Bind.bind, Except.bind] at h
      | ok jj =>
          cases hrest : validateJoinList pat ops alos len kw rest with
          | error m => simp [hj0, hrest, Bind.bind, Except.bind] at h
          | ok rest2 =>
              rcases List.mem_cons.mp hj with rfl | hjmem
              · unfold validateJoinCondition at hj0
                split_ifs at hj0
                all_goals try simp at hj0
                all_goals cases hon : validateWhereList j.onConds (joinWhereContext pat ops alos len kw) with
                | error m => simp [hon, Bind.bind, Except.bind] at hj0
                | ok on2 => exact validateWhereList_values_ok _ _ _ hon v hv
              · exact ih rest2 hrest j hjmem v hv

/-- Inversion of `validateAndSanitizeQuery`: a successful run yields a
success of each of the eight stages, and the result is their
reassembly. -/
theorem validateQuery_stages (q : QueryOptions) (opts : ValidationOptions)
    (q' : QueryOptions) (h : validateAndSanitizeQuery q opts = .ok q') :
    ∃ sel jns whr gby hav oby lim off,
      validateAndSanitizeFields (opts.maxSelectFields.getD 50) "select"
          (opts.allowedFieldPattern.getD allowedFieldTest) q.select = .ok sel
      ∧ validateJoinsOpt (opts.allowedFieldPattern.getD allowedFieldTest)
          opts.allowedOperators opts.allowedLogicalOperators opts.maxValueLength
          opts.preventSqlKeywords q.joins = .ok jns
      ∧ validateWhereOpt (queryWhereContext opts) q.whereCs = .ok whr
      ∧ validateAndSanitizeFields (opts.maxGroupByFields.getD 10) "groupBy"
          (opts.allowedFieldPattern.getD allowedFieldTest) q.groupBy = .ok gby
      ∧ validateHavingOpt (queryWhereContext opts) q.having = .ok hav
      ∧ validateAndSanitizeOrderBy (opts.allowedFieldPattern.getD allowedFieldTest)
          q.orderBy = .ok oby
      ∧ validateAndSanitizeLimit q.limit = .ok lim
      ∧ validateAndSanitizeOffset q.offset = .ok off
      ∧ q' = { select := sel, joins := jns, whereCs := whr, groupBy := gby,
               having := hav, orderBy := oby, limit := lim, offset := off } := by
  simp only [validateAndSanitizeQuery] at h
  obtain ⟨sel, hsel, h⟩ := exceptBind_ok h
  obtain ⟨jns, hjns, h⟩ := exceptBind_ok h
  obtain ⟨whr, hwhr, h⟩ := exceptBind_ok h
  obtain ⟨gby, hgby, h⟩ := exceptBind_ok h
  obtain ⟨hav, hhav, h⟩ := exceptBind_ok h
  obtain ⟨oby, hoby, h⟩ := exceptBind_ok h
  obtain ⟨lim, hlim, h⟩ := exceptBind_ok h
  obtain ⟨off, hoff, h⟩ := exceptBind_ok h
  refine ⟨sel, jns, whr, gby, hav, oby, lim, off,
    hsel, hjns, hwhr, hgby, hhav, hoby, hlim, hoff, ?_⟩
  simp only [pure, Except.pure, Except.ok.injEq] at h
  exact h.symm

/-- Claim C4: a query containing — at any depth of its where input, its
having list, or any join's `on` list — a condition whose value is a string
matching the dangerous-substring set or the forbidden character class
(quote, backslash, semicolon, slash, dash) never passes
`validateAndSanitizeQuery`: the validator fails with an error, so such a
value cannot reach the SQL compiler. -/
theorem c4_dangerous_value_rejected (q : QueryOptions) (opts : ValidationOptions)
    (s : String) (hmem : Value.str s ∈ queryLeafValues q)
    (hd : dangerousJSString s = true) :
    ∃ msg, validateAndSanitizeQuery q opts = .error msg := by
  cases hres : validateAndSanitizeQuery q opts with
  | error m => exact ⟨m, rfl⟩
  | ok q2 =>
      exfalso
      obtain ⟨sel, jns, whr, gby, hav, oby, lim, off,
        hsel, hjns, hwhr, hgby, hhav, hoby, hlim, hoff, hq⟩ :=
        validateQuery_stages q opts q2 hres
      have hvalue : validateValue (Value.str s) opts.maxValueLength
          opts.preventSqlKeywords = .ok () := by
        unfold queryLeafValues at hmem
        simp only [List.mem_append] at hmem
        rcases hmem with (hmem | hmem) | hmem
        · cases hw : q.whereCs with
          | none => rw [hw] at hmem; simp at hmem
          | some wi =>
              rw [hw] at hmem hwhr
              cases wi with
              | one c =>
                  simp only [validateWhereOpt] at hwhr
                  cases hc : validateAndSanitizeWhereClause c (queryWhereContext opts) with
                  | error m => simp [hc, Bind.bind, Except.bind] at hwhr
                  | ok c2 =>
                      exact validateWhereClause_values_ok c _ c2 hc (Value.str s)
                        (by simpa using hmem)
              | many cs =>
                  simp only [validateWhereOpt] at hwhr
                  cases hcs : validateWhereList cs (queryWhereContext opts) with
                  | error m => simp [hcs, Bind.bind, Except.bind] at hwhr
                  | ok cs2 =>
                      exact validateWhereList_values_ok cs _ cs2 hcs (Value.str s)
                        (by simpa using hmem)
        · cases hh : q.having with
          | none => rw [hh] at hmem; simp at hmem
          | some cs =>
              rw [hh] at hmem hhav
              simp only [validateHavingOpt] at hhav
              cases hcs : validateWhereList cs (queryWhereContext opts) with
              | error m => simp [hcs, Bind.bind, Except.bind] at hhav
              | ok cs2 =>
                  exact validateWhereList_values_ok cs _ cs2 hcs (Value.str s)
                    (by simpa using hmem)
        · cases hj : q.joins with
          | none => rw [hj] at hmem; simp at hmem
          | some js =>
              rw [hj] at hmem hjns
              simp only at hmem
              obtain ⟨l, hl, hvl⟩ := List.mem_flatten.mp hmem
              obtain ⟨j, hjmem, rfl⟩ := List.mem_map.mp hl
              simp only [validateJoinsOpt] at hjns
              cases hjl : validateJoinList (opts.allowedFieldPattern.getD allowedFieldTest)
                  opts.allowedOperators opts.allowedLogicalOperators opts.maxValueLength
                  opts.preventSqlKeywords js with
              | error m => simp [hjl, Bind.bind, Except.bind] at hjns
              | ok js2 =>
                  exact validateJoinList_values_ok _ _ _ _ _ _ _ hjl j hjmem
                    (Value.str s) hvl
      exact validateValue_str_dangerous s _ _ hd () hvalue

/-- Witness for C4 at the Scenario D payload inside a where condition. -/
theorem c4_dangerous_value_rejected_witness :
    dangerousJSString dropTableStr = true
    ∧ ∃ msg, validateAndSanitizeQuery c4Query {} = .error msg :=
  ⟨rfl, c4_dangerous_value_rejected c4Query {} dropTableStr (List.Mem.head _) rfl⟩

/-- Claim C8: a GET request whose path has a second non-empty segment
other than the reserved literal `list` parses to a READ descriptor whose
where is exactly the single condition `id = resourceId` (any query-string
predicates discarded), whose limit is forced to 1 regardless of the query
limit, and whose fields are the query's select list or `["*"]` when select
is absent. -/
theorem c8_get_by_id_overrides (request : RestQLRequest) (t i : String)
    (rest : List String) (hm : request.method = "GET")
    (hp : (splitOnChar '/' request.path).filter (fun s => s != "") = t :: i :: rest)
    (hlist : i ≠ "list") :
    parseRequest request = .ok
      { operation := "READ", table := t,
        fields := some (request.query.select.getD ["*"]),
        whereCs := some [.cond { field := "id", operator := "=", value := .str i }],
        joins := request.query.joins, orderBy := request.query.orderBy,
        groupBy := request.query.groupBy, having := request.query.having,
        limit := some 1, offset := request.query.offset } := by
  have hine : i ≠ "" := by
    have hmem : i ∈ (splitOnChar '/' request.path).filter (fun s => s != "") := by
      rw [hp]; exact List.mem_cons_of_mem _ (List.mem_cons_self _ _)
    have := (List.mem_filter.mp hmem).2
    simpa using this
  unfold parseRequest
  rw [hm, hp]
  simp only [List.getD_cons_zero, List.getD_cons_succ]
  have hcond : (i != "" && i != "list") = true := by
    simp [bne_iff_ne, hine, hlist]
  simp [hcond]

/-- Witness for C8 at GET /users/42 with select, predicate and limit in the
query string. -/
theorem c8_get_by_id_overrides_witness :
    parseRequest c8Request = .ok
      { operation := "READ", table := "users", fields := some ["id", "name"],
        whereCs := some [.cond { field := "id", operator := "=", value := .str "42" }],
        joins := none, orderBy := none, groupBy := none, having := none,
        limit := some 1, offset := none } :=
  c8_get_by_id_overrides c8Request "users" "42" [] rfl rfl (by decide)

/-- A successful field entry validation returns the entry unchanged. -/
theorem validateFieldEntry_id (f f2 : String) (h : validateFieldEntry f = .ok f2) :
    f2 = f := by
  unfold validateFieldEntry at h
  split_ifs at h <;> simp_all

/-- A successful field list validation returns the list unchanged. -/
theorem validateFieldList_id (fs fs2 : List String)
    (h : validateFieldList fs = .ok fs2) : fs2 = fs := by
  induction fs generalizing fs2 with
  | nil => simp [validateFieldList] at h; exact h
  | cons f rest ih =>
      simp only [validateFieldList] at h
      cases hf : validateFieldEntry f with
      | error m => simp [hf, Bind.bind, Except.bind] at h
      | ok f2 =>
          cases hrest : validateFieldList rest with
          | error m => simp [hf, hrest, Bind.bind, Except.bind] at h
          | ok rest2 =>
              simp [hf, hrest, Bind.bind, Except.bind] at h
              rw [← h, validateFieldEntry_id f f2 hf, ih rest2 hrest]

mutual

/-- A successful clause validation returns the clause unchanged. -/
theorem validateWhereClause_id (c : WhereClause) (ctx : WhereContext)
    (c2 : WhereClause) (h : validateAndSanitizeWhereClause c ctx = .ok c2) :
    c2 = c := by
  cases c with
  | cond cc =>
      simp only [validateAndSanitizeWhereClause] at h
      split_ifs at h
      all_goals try simp at h
      all_goals cases hvc : validateAndSanitizeWhereCondition ctx.allowedFieldPattern cc ctx.allowedOperators ctx.maxValueLength ctx.preventSqlKeywords with
      | error m => simp [hvc, Bind.bind, Except.bind] at h
      | ok c3 =>
          have hcc := (validateCondition_value_ok _ _ _ _ _ _ hvc).1
          simp [hvc, Bind.bind, Except.bind] at h
          rw [← h, hcc]
  | group operator conditions negated =>
      simp only [validateAndSanitizeWhereClause] at h
      split_ifs at h
      all_goals try simp at h
      all_goals cases hlist : validateWhereList conditions { ctx with depth := ctx.depth + 1 } with
      | error m => simp [hlist, Bind.bind, Except.bind] at h
      | ok cs2 =>
          have hcs := validateWhereList_id conditions _ cs2 hlist
          simp [hlist, Bind.bind, Except.bind] at h
          rw [← h, hcs]

/-- A successful clause-list validation returns the list unchanged. -/
theorem validateWhereList_id (cs : List WhereClause) (ctx : WhereContext)
    (cs2 : List WhereClause) (h : validateWhereList cs ctx = .ok cs2) :
    cs2 = cs := by
  cases cs with
  | nil => simp [validateWhereList] at h; exact h
  | cons c rest =>
      simp only [validateWhereList] at h
      cases hc : validateAndSanitizeWhereClause c ctx with
      | error m => simp [hc, Bind.bind, Except.bind] at h
      | ok c2 =>
          cases hrest : validateWhereList rest ctx with
          | error m => simp [hc, hrest, Bind.bind, Except.bind] at h
          | ok rest2 =>
              simp [hc, hrest, Bind.bind, Except.bind] at h
              rw [← h, validateWhereClause_id c ctx c2 hc,
                validateWhereList_id rest ctx rest2 hrest]

end

/-- A successful join validation returns the join unchanged. -/
theorem validateJoinCondition_id (pat : String → Bool)
    (ops alos : Option (List String)) (len : Option Nat) (kw : Option Bool)
    (j j2 : JoinCondition) (h : validateJoinCondition pat j ops alos len kw = .ok j2) :
    j2 = j := by
  unfold validateJoinCondition at h
  split_ifs at h
  all_goals try simp at h
  all_goals cases hon : validateWhereList j.onConds (joinWhereContext pat ops alos len kw) with
  | error m => simp [hon, Bind.bind, Except.bind] at h
  | ok on2 =>
      have ho := validateWhereList_id _ _ _ hon
      simp [hon, Bind.bind, Except.bind] at h
      rw [← h, ho]

/-- A successful join-list validation returns the list unchanged. -/
theorem validateJoinList_id (pat : String → Bool)
    (ops alos : Option (List String)) (len : Option Nat) (kw : Option Bool)
    (js js2 : List JoinCondition)
    (h : validateJoinList pat ops alos len kw js = .ok js2) : js2 = js := by
  induction js generalizing js2 with
  | nil => simp [validateJoinList] at h; exact h
  | cons j rest ih =>
      simp only [validateJoinList] at h
      cases hj : validateJoinCondition pat j ops alos len kw with
      | error m => simp [hj, Bind.bind, Except.bind] at h
      | ok j2 =>
          cases hrest : validateJoinList pat ops alos len kw rest with
          | error m => simp [hj, hrest, Bind.bind, Except.bind] at h
          | ok rest2 =>
              simp [hj, hrest, Bind.bind, Except.bind] at h
              rw [← h, validateJoinCondition_id _ _ _ _ _ _ _ hj, ih rest2 hrest]

/-- A successful orderBy list validation returns the list unchanged. -/
theorem validateOrderByList_id (pat : String → Bool)
    (os os2 : List OrderByClause) (h : validateOrderByList pat os = .ok os2) :
    os2 = os := by
  induction os generalizing os2 with
  | nil => simp [validateOrderByList] at h; exact h
  | cons o rest ih =>
      simp only [validateOrderByList] at h
      split_ifs at h
      all_goals try simp at h
      all_goals cases hrest : validateOrderByList pat rest with
      | error m => simp [hrest, Bind.bind, Except.bind] at h
      | ok rest2 =>
          simp [hrest, Bind.bind, Except.bind] at h
          rw [← h, ih rest2 hrest]

/-- Revalidating a validated field list succeeds with the same output. -/
theorem validateFields_idem (m : Nat) (cName : String) (pat : String → Bool)
    (fields out : Option (List String))
    (h : validateAndSanitizeFields m cName pat fields = .ok out) :
    validateAndSanitizeFields m cName pat out = .ok out := by
  cases fields with
  | none =>
      simp [validateAndSanitizeFields] at h
      subst h
      rfl
  | some fs =>
      simp only [validateAndSanitizeFields] at h
      split_ifs at h with hlen
      all_goals try simp at h
      all_goals cases hfl : validateFieldList fs with
      | error m2 => simp [hfl, Bind.bind, Except.bind] at h
      | ok g =>
          have hg : g = fs := validateFieldList_id fs g hfl
          simp [hfl, Bind.bind, Except.bind] at h
          rw [← h, hg]
          simp only [validateAndSanitizeFields]
          rw [if_neg hlen]
          simp [hfl, hg, Bind.bind, Except.bind]

/-- Revalidating a validated joins option succeeds with the same output. -/
theorem validateJoinsOpt_idem (pat : String → Bool)
    (ops alos : Option (List String)) (len : Option Nat) (kw : Option Bool)
    (jo out : Option (List JoinCondition))
    (h : validateJoinsOpt pat ops alos len kw jo = .ok out) :
    validateJoinsOpt pat ops alos len kw out = .ok out := by
  cases jo with
  | none =>
      simp [validateJoinsOpt] at h
      rw [← h]
      simp [validateJoinsOpt]
  | some js =>
      simp only [validateJoinsOpt] at h
      cases hjl : validateJoinList pat ops alos len kw js with
      | error m => simp [hjl, Bind.bind, Except.bind] at h
      | ok js2 =>
          have hid : js2 = js := validateJoinList_id _ _ _ _ _ _ _ hjl
          simp [hjl, Bind.bind, Except.bind] at h
          rw [← h, hid]
          simp [validateJoinsOpt, hjl, hid, Bind.bind, Except.bind]

/-- Revalidating a validated where option succeeds with the same output. -/
theorem validateWhereOpt_idem (ctx : WhereContext) (w out : Option WhereInput)
    (h : validateWhereOpt ctx w = .ok out) :
    validateWhereOpt ctx out = .ok out := by
  cases w with
  | none =>
      simp [validateWhereOpt] at h
      rw [← h]
      simp [validateWhereOpt]
  | some wi =>
      cases wi with
      | many cs =>
          simp only [validateWhereOpt] at h
          cases hcs : validateWhereList cs ctx with
          | error m => simp [hcs, Bind.bind, Except.bind] at h
          | ok cs2 =>
              have hid : cs2 = cs := validateWhereList_id cs ctx cs2 hcs
              simp [hcs, Bind.bind, Except.bind] at h
              rw [← h, hid]
              simp [validateWhereOpt, hcs, hid, Bind.bind, Except.bind]
      | one c =>
          simp only [validateWhereOpt] at h
          cases hc : validateAndSanitizeWhereClause c ctx with
          | error m => simp [hc, Bind.bind, Except.bind] at h
          | ok c2 =>
              have hid : c2 = c := validateWhereClause_id c ctx c2 hc
              simp [hc, Bind.bind, Except.bind] at h
              rw [← h, hid]
              simp [validateWhereOpt, validateWhereList, hc, hid,
                Bind.bind, Except.bind]

/-- Revalidating a validated having option succeeds with the same output. -/
theorem validateHavingOpt_idem (ctx : WhereContext)
    (hv out : Option (List WhereClause))
    (h : validateHavingOpt ctx hv = .ok out) :
    validateHavingOpt ctx out = .ok out := by
  cases hv with
  | none =>
      simp [validateHavingOpt] at h
      rw [← h]
      simp [validateHavingOpt]
  | some cs =>
      simp only [validateHavingOpt] at h
      cases hcs : validateWhereList cs ctx with
      | error m => simp [hcs, Bind.bind, Except.bind] at h
      | ok cs2 =>
          have hid : cs2 = cs := validateWhereList_id cs ctx cs2 hcs
          simp [hcs, Bind.bind, Except.bind] at h
          rw [← h, hid]
          simp [validateHavingOpt, hcs, hid, Bind.bind, Except.bind]

/-- Revalidating a validated orderBy option succeeds with the same output. -/
theorem validateOrderBy_idem (pat : String → Bool)
    (ob out : Option (List OrderByClause))
    (h : validateAndSanitizeOrderBy pat ob = .ok out) :
    validateAndSanitizeOrderBy pat out = .ok out := by
  cases ob with
  | none =>
      simp [validateAndSanitizeOrderBy] at h
      rw [← h]
      simp [validateAndSanitizeOrderBy]
  | some os =>
      simp only [validateAndSanitizeOrderBy] at h
      cases hos : validateOrderByList pat os with
      | error m => simp [hos, Bind.bind, Except.bind] at h
      | ok os2 =>
          have hid : os2 = os := validateOrderByList_id pat os os2 hos
          simp [hos, Bind.bind, Except.bind] at h
          rw [← h, hid]
          simp [validateAndSanitizeOrderBy, hos, hid, Bind.bind, Except.bind]

/-- Revalidating a validated limit succeeds with the same output. -/
theorem validateLimit_idem (l out : Option Int)
    (h : validateAndSanitizeLimit l = .ok out) :
    validateAndSanitizeLimit out = .ok out := by
  cases l with
  | none => simp [validateAndSanitizeLimit] at h; rw [← h]; simp [validateAndSanitizeLimit]
  | some x =>
      simp only [validateAndSanitizeLimit] at h
      split_ifs at h with hx
      all_goals try simp at h
      all_goals try subst h
      all_goals simp [validateAndSanitizeLimit, hx]

/-- Revalidating a validated offset succeeds with the same output. -/
theorem validateOffset_idem (o out : Option Int)
    (h : validateAndSanitizeOffset o = .ok out) :
    validateAndSanitizeOffset out = .ok out := by
  cases o with
  | none => simp [validateAndSanitizeOffset] at h; rw [← h]; simp [validateAndSanitizeOffset]
  | some x =>
      simp only [validateAndSanitizeOffset] at h
      split_ifs at h with hx
      all_goals try simp at h
      all_goals try subst h
      all_goals simp [validateAndSanitizeOffset, hx]

/-- Claim C9: validation is idempotent — whenever
`validateAndSanitizeQuery` accepts a query under given options, running it
again on the result under the same options succeeds and returns the same
value. -/
theorem c9_validate_idempotent (q : QueryOptions) (opts : ValidationOptions)
    (q' : QueryOptions) (h : validateAndSanitizeQuery q opts = .ok q') :
    validateAndSanitizeQuery q' opts = .ok q' := by
  obtain ⟨sel, jns, whr, gby, hav, oby, lim, off,
    hsel, hjns, hwhr, hgby, hhav, hoby, hlim, hoff, hq⟩ :=
    validateQuery_stages q opts q' h
  subst hq
  have hsel2 := validateFields_idem _ _ _ _ _ hsel
  have hjns2 := validateJoinsOpt_idem _ _ _ _ _ _ _ hjns
  have hwhr2 := validateWhereOpt_idem _ _ _ hwhr
  have hgby2 := validateFields_idem _ _ _ _ _ hgby
  have hhav2 := validateHavingOpt_idem _ _ _ hhav
  have hoby2 := validateOrderBy_idem _ _ _ hoby
  have hlim2 := validateLimit_idem _ _ hlim
  have hoff2 := validateOffset_idem _ _ hoff
  simp only [validateAndSanitizeQuery]
  simp [hsel2, hjns2, hwhr2, hgby2, hhav2, hoby2, hlim2, hoff2,
    Bind.bind, Except.bind, pure, Except.pure]

/-- Witness for C9: a concrete query with select, a single-clause where,
orderBy and limit validates to a normalized value on which validation is a
fixed point. -/
theorem c9_validate_idempotent_witness :
    validateAndSanitizeQuery c9Query {} =
      .ok { select := some ["id"], joins := none,
            whereCs := some (.many
              [.cond { field := "age", operator := ">", value := .int 18 }]),
            groupBy := none, having := none,
            orderBy := some [{ field := "id", direction := "ASC" }],
            limit := some 10, offset := none }
    ∧ validateAndSanitizeQuery
        { select := some ["id"], joins := none,
          whereCs := some (.many
            [.cond { field := "age", operator := ">", value := .int 18 }]),
          groupBy := none, having := none,
          orderBy := some [{ field := "id", direction := "ASC" }],
          limit := some 10, offset := none } {} =
      .ok { select := some ["id"], joins := none,
            whereCs := some (.many
              [.cond { field := "age", operator := ">", value := .int 18 }]),
            groupBy := none, having := none,
            orderBy := some [{ field := "id", direction := "ASC" }],
            limit := some 10, offset := none } :=
  ⟨rfl, c9_validate_idempotent c9Query {} _ rfl⟩

end RestQL
